import Mathlib

/-!
Verification of the Photo-Tourism AI Guide core components.

Shallow embedding of:
- the nearby-places response parser in `src/services/geminiService.ts`
  (`fetchNearbyHistoricalPlaces`, lines 103-129);
- the discovery-session handlers in `src/App.tsx`
  (`handleDiscoverNearby`, `handleLoadMore`, `resetState`, `selectPlace`);
- the narration audio component (`AudioPlayer`, `src/unnamed/part_000`)
  (play/stop lifecycle, decode effect and its cleanup);
- the narration-generation error handling in `generateNarration`.

JavaScript strings are modelled as Lean `String`.  The JavaScript string
primitives used by the source (`split`, `trim`, `includes`, `toLowerCase`)
are re-implemented below by structural recursion on the character list, so
that every definition evaluates inside the kernel; on the text handled by
this program they agree with the JavaScript semantics.
-/

namespace TourGuide

/-! ## String helpers mirroring JavaScript primitives -/

/-- Test `listIsPre pat l` is true when `pat` is a leading segment of `l`
(the list form of JavaScript `startsWith`). -/
def listIsPre : List Char → List Char → Bool
  | [], _ => true
  | _ :: _, [] => false
  | p :: ps, c :: cs => p == c && listIsPre ps cs

/-- Test `listHasSub pat l` is true when `pat` occurs contiguously inside `l`. -/
def listHasSub (pat : List Char) : List Char → Bool
  | [] => pat.isEmpty
  | c :: cs => listIsPre pat (c :: cs) || listHasSub pat cs

/-- JavaScript `s.includes(pat)`: substring containment. -/
def containsSub (s pat : String) : Bool :=
  listHasSub pat.toList s.toList

/-- Splitting on every non-overlapping occurrence of `sep`, scanning left to
right, keeping trailing empty pieces (JavaScript `String.prototype.split`).
The first argument is fuel bounding the scan; it is instantiated with the
length of the scanned list, which the scan never exceeds. -/
def splitFuel (sep : List Char) : Nat → List Char → List (List Char)
  | _, [] => [[]]
  | 0, l => [l]
  | fuel + 1, c :: cs =>
    if !sep.isEmpty && listIsPre sep (c :: cs) then
      [] :: splitFuel sep fuel ((c :: cs).drop sep.length)
    else
      match splitFuel sep fuel cs with
      | [] => [[c]]
      | h :: t => (c :: h) :: t

/-- JavaScript `s.split(sep)` for a non-empty separator. -/
def jsSplit (s sep : String) : List String :=
  (splitFuel sep.toList s.toList.length s.toList).map String.mk

/-- Whitespace removal at both ends of a character list. -/
def trimL (l : List Char) : List Char :=
  ((l.dropWhile Char.isWhitespace).reverse.dropWhile Char.isWhitespace).reverse

/-- JavaScript `s.trim()` (the inputs of interest carry only ASCII
whitespace). -/
def jsTrim (s : String) : String :=
  String.mk (trimL s.toList)

/-- JavaScript `s.toLowerCase()` restricted to ASCII letters, used for the
normalized (deduplication) identity of a place name. -/
def lowerStr (s : String) : String :=
  String.mk (s.toList.map Char.toLower)

/-! ## Place-list parser (`fetchNearbyHistoricalPlaces`, geminiService.ts 103-129) -/

/-- One parsed nearby place: `{ name, type, distance }` as built by the
parsing block of `fetchNearbyHistoricalPlaces`. -/
structure Place where
  name : String
  type : String
  distance : String
deriving DecidableEq, Repr

/-- The character class of the list-marker regex `/^[\d\s\.\-\*]+/`
applied to the name field: digits, whitespace, dots, dashes, asterisks. -/
def markerChar (c : Char) : Bool :=
  c.isDigit || c.isWhitespace || c == '.' || c == '-' || c == '*'

/-- Delimiter choice and split of one retained line
(geminiService.ts 111-114): `'|'` wins over `' - '`, which wins over `':'`;
a line with none of them yields the empty parts array. -/
def chooseParts (line : String) : List String :=
  if containsSub line "|" then jsSplit line "|"
  else if containsSub line " - " then jsSplit line " - "
  else if containsSub line ":" then jsSplit line ":"
  else []

/-- The cleaned name of a line: first field (or `""`), leading marker run
stripped, then trimmed (geminiService.ts 117-118). -/
def cleanName (line : String) : String :=
  jsTrim (String.mk (((chooseParts line).headD "").toList.dropWhile markerChar))

/-- The candidate built from one retained line (the body of the `map` at
geminiService.ts 110-126).  `parts[k] || dflt` is JavaScript: an absent
index and the empty string both fall back to the default, but a
whitespace-only string does not. -/
def mkPlace (line : String) : Place :=
  let parts := chooseParts line
  let name := cleanName line
  { name := if name = "" then "Interesting Place" else name,
    type := jsTrim (if parts.getD 1 "" = "" then "Point of Interest" else parts.getD 1 ""),
    distance := jsTrim (parts.getD 2 "") }

/-- The line filter (geminiService.ts 108): trimmed length strictly above 5
and at least one recognized delimiter present. -/
def keepLine (l : String) : Bool :=
  decide (l.length > 5) && (containsSub l "|" || containsSub l ":" || containsSub l " - ")

/-- The final candidate filter (geminiService.ts 127): name strictly longer
than 2 characters. -/
def keepPlace (p : Place) : Bool :=
  decide (p.name.length > 2)

/-- The whole parsing step of `fetchNearbyHistoricalPlaces`: split the raw
text into lines, trim, filter, build a candidate per retained line, filter
by name length. -/
def parsePlaces (text : String) : List Place :=
  let lines := ((jsSplit text "\n").map jsTrim).filter keepLine
  (lines.map mkPlace).filter keepPlace

/-- Normalized place-name identity used for deduplication questions:
case-insensitive and whitespace-trimmed. -/
def normName (n : String) : String :=
  lowerStr (jsTrim n)

/-! ## Discovery session (`App.tsx`)

The component state of `App` restricted to the fields the discovery flow
reads or writes.  Each handler is modelled as a function from the state and
the outcome of its external calls (geolocation, generation provider) to the
state after the handler has run to completion.  Citations, language and the
loading-step caption are plumbing not touched by the verified properties and
are omitted.  A provider outcome is `Except` (the promise rejected with a
message, or resolved), and a resolved response carries `response.text` as
`Option String` (`response.text || ""` is `Option.getD`). -/

/-- GPS coordinates.  Numeric values are never computed with, so rationals
stand in for JavaScript numbers. -/
structure Coords where
  latitude : Rat
  longitude : Rat
deriving DecidableEq, Repr

/-- The modelled slice of the `App` component state. -/
structure AppState where
  landmarkName : String
  history : String
  audioData : Option String
  nearbyPlaces : List Place
  location : Option Coords
  isLoading : Bool
  isLoadingMore : Bool
  error : String
deriving DecidableEq, Repr

/-- Handler `resetState` (App.tsx 37-44): clears the result fields, the place list
and the error; location and loading flags are untouched. -/
def resetState (s : AppState) : AppState :=
  { s with landmarkName := "", history := "", audioData := none,
           nearbyPlaces := [], error := "" }

/-- Outcome of the geolocation request inside `handleDiscoverNearby`. -/
inductive GeoResult where
  | unsupported
  | failure (msg : String)
  | success (coords : Coords)

/-- Placeholder for the localized `t('locationError')` caption; the
translation table lives outside the verified core. -/
def locationErrorText : String := "locationError"

/-- Handler `handleDiscoverNearby` (App.tsx 65-102) run to completion: set loading,
clear and reset state, then branch on geolocation; on success, query the
provider, parse its text, and either report the empty-result message or
install the parsed places. -/
def handleDiscoverNearby (s : AppState) (geo : GeoResult)
    (fetch : Except String (Option String)) : AppState :=
  let s0 := resetState { s with isLoading := true, error := "" }
  match geo with
  | .unsupported =>
      { s0 with error := "Seu navegador não suporta geolocalização.", isLoading := false }
  | .failure m =>
      { s0 with error := locationErrorText ++ " (" ++ m ++ ")", isLoading := false }
  | .success c =>
      let s1 := { s0 with location := some c }
      match fetch with
      | .error e => { s1 with error := "Erro ao buscar lugares: " ++ e, isLoading := false }
      | .ok t =>
          let places := parsePlaces (t.getD "")
          if places.isEmpty then
            { s1 with
              error := "Nenhum local histórico encontrado exatamente nesta área. Tente se mover um pouco.",
              isLoading := false }
          else
            { s1 with nearbyPlaces := places, isLoading := false }

/-- Handler `handleLoadMore` (App.tsx 104-123) run to completion: no-op without a
location; otherwise clear the error, query the provider with the current
names as exclusions, and append the parsed candidates — the code performs no
client-side filtering of the new candidates against the existing names. -/
def handleLoadMore (s : AppState) (fetch : Except String (Option String)) : AppState :=
  match s.location with
  | none => s
  | some _ =>
      let s0 := { s with isLoadingMore := true, error := "" }
      match fetch with
      | .error e => { s0 with error := "Erro ao carregar mais: " ++ e, isLoadingMore := false }
      | .ok t =>
          let newPlaces := parsePlaces (t.getD "")
          if newPlaces.isEmpty then { s0 with isLoadingMore := false }
          else { s0 with nearbyPlaces := s0.nearbyPlaces ++ newPlaces, isLoadingMore := false }

/-- Handler `selectPlace` (App.tsx 125-130) up to the handoff to `processOutput`:
clears the candidate list and records the resolved landmark name. -/
def selectPlace (s : AppState) (name : String) : AppState :=
  { s with isLoading := true, nearbyPlaces := [], landmarkName := name }

/-- A concrete origin used to instantiate session scenarios. -/
def sampleCoords : Coords :=
  { latitude := 0, longitude := 0 }

/-- A concrete mid-session state: one accumulated place, a known location,
no pending work. -/
def sampleSession : AppState :=
  { landmarkName := "", history := "", audioData := none,
    nearbyPlaces := [{ name := "Statue", type := "Monument", distance := "50m" }],
    location := some sampleCoords,
    isLoading := false, isLoadingMore := false, error := "" }

/-! ## Narration generation (`generateNarration`, geminiService.ts 167-187)

The provider call either rejects (the `catch` arm) or resolves with an
optional inline audio payload (the optional-chaining walk down to
`inlineData.data`). -/

/-- Function `generateNarration` reduced to its error handling: a rejected call is
caught and yields `''`; a resolved call yields the payload or `''` when the
chain is absent (`data || ''`). -/
def generateNarration (outcome : Except String (Option String)) : String :=
  match outcome with
  | .error _ => ""
  | .ok d => d.getD ""

/-- The three recognized output formats (App.tsx 11). -/
inductive OutputFormat where
  | textOnly
  | audioOnly
  | textAndAudio
deriving DecidableEq, Repr

/-- The render gate for the narration widget (App.tsx 318):
`audioData && outputFormat !== 'textOnly'`, with JavaScript truthiness of
the string — `null` and `""` are both falsy. -/
def rendersAudioPlayer (audioData : Option String) (fmt : OutputFormat) : Bool :=
  (match audioData with
   | none => false
   | some a => decide (a ≠ "")) && decide (fmt ≠ OutputFormat.textOnly)

/-! ## Narration audio pipeline (`AudioPlayer`, src/unnamed/part_000)

The component is modelled as a state machine.  Machine state carries the
three refs and two state hooks of the component, plus a ledger of every
playback handle ever created (`AudioBufferSourceNode`s), each recording the
sample offset it was started at and whether it is still producing audio.
The audio context itself is created on mount and never read beyond its
presence, so it is not represented.  Events:

- `toggle`    — a click on the play/pause button (`handlePlayPause`);
- `ended`     — the `onended` callback of the current source;
- `submit d`  — the `audioData` prop changed to `d`: the effect cleanup of
                the previous run stops any current source, then
                `processAudio` starts (a decode is issued only when `d` is
                non-empty);
- `decodeOk`  — `decodeAudioData` resolved: store the buffer, become ready;
- `decodeFail`— `decodeAudioData` threw: log, stay not ready;
- `teardown`  — unmount: the effect cleanup stops any current source. -/

/-- One playback handle (`AudioBufferSourceNode`): its identity, the sample
offset `start()` was called with (always 0 in the source — `start()` takes
no argument), and whether it is still live. -/
structure Handle where
  id : Nat
  startOffset : Nat
  active : Bool
deriving DecidableEq, Repr

/-- State of one `AudioPlayer` instance. -/
structure PlayerState where
  isPlaying : Bool
  isReady : Bool
  decoding : Bool
  buffer : Option Nat
  sourceId : Option Nat
  handles : List Handle
  nextId : Nat
  nextBuf : Nat
deriving DecidableEq, Repr

/-- Mark the handle with the given id as no longer producing audio
(`source.stop()`, or natural completion). -/
def markInactive (hs : List Handle) (i : Nat) : List Handle :=
  hs.map fun h => if h.id = i then { h with active := false } else h

/-- The effect cleanup (part_000 40-44): stop the current source if there is
one; the ref itself is not cleared and `isPlaying` is not touched. -/
def stopCurrentSource (s : PlayerState) : PlayerState :=
  match s.sourceId with
  | none => s
  | some i => { s with handles := markInactive s.handles i }

/-- Handler `handlePlayPause` (part_000 47-68).  Guard: not ready or no decoded
buffer is a no-op.  While playing: stop and drop the current source, leave
playing state.  Otherwise: create a fresh source bound to the buffer, start
it at offset zero, remember it, enter playing state. -/
def handlePlayPause (s : PlayerState) : PlayerState :=
  if !s.isReady || s.buffer.isNone then s
  else if s.isPlaying then
    match s.sourceId with
    | none => { s with isPlaying := false }
    | some i =>
        { s with handles := markInactive s.handles i, sourceId := none, isPlaying := false }
  else
    { s with
      handles := s.handles ++ [{ id := s.nextId, startOffset := 0, active := true }],
      sourceId := some s.nextId,
      nextId := s.nextId + 1,
      isPlaying := true }

/-- The `onended` callback (part_000 60-63): leave playing state and clear
the source ref; the finished source is no longer live. -/
def onEnded (s : PlayerState) : PlayerState :=
  match s.sourceId with
  | none => { s with isPlaying := false }
  | some i =>
      { s with isPlaying := false, sourceId := none, handles := markInactive s.handles i }

/-- A change of the `audioData` prop (part_000 17-45): previous cleanup
stops the current source, then `processAudio` runs — nothing for an empty
payload, otherwise `setIsReady(false)` and a decode is issued. -/
def submitAudio (d : String) (s : PlayerState) : PlayerState :=
  let s1 := stopCurrentSource s
  if d = "" then s1
  else { s1 with isReady := false, decoding := true }

/-- Event `decodeAudioData` resolved (part_000 28-31): install the fresh buffer
and become ready. -/
def decodeComplete (s : PlayerState) : PlayerState :=
  if s.decoding then
    { s with buffer := some s.nextBuf, nextBuf := s.nextBuf + 1,
             isReady := true, decoding := false }
  else s

/-- Event `decodeAudioData` threw (part_000 32-34): the error is logged and the
component stays not ready. -/
def decodeFailed (s : PlayerState) : PlayerState :=
  if s.decoding then { s with decoding := false } else s

/-- Unmount: the effect cleanup stops the current source. -/
def teardownPlayer (s : PlayerState) : PlayerState :=
  stopCurrentSource s

/-- Events the component reacts to. -/
inductive PlayerEvent where
  | toggle
  | ended
  | submit (d : String)
  | decodeOk
  | decodeFail
  | teardown
deriving DecidableEq, Repr

/-- One step of the component machine. -/
def step (s : PlayerState) : PlayerEvent → PlayerState
  | .toggle => handlePlayPause s
  | .ended => onEnded s
  | .submit d => submitAudio d s
  | .decodeOk => decodeComplete s
  | .decodeFail => decodeFailed s
  | .teardown => teardownPlayer s

/-- The component state right after mount. -/
def initPlayer : PlayerState :=
  { isPlaying := false, isReady := false, decoding := false,
    buffer := none, sourceId := none, handles := [], nextId := 0, nextBuf := 0 }

/-- The state reached after a sequence of events from mount. -/
def run (es : List PlayerEvent) : PlayerState :=
  es.foldl step initPlayer

/-- The four lifecycle phases of the narration pipeline, read off the
component state: a pending decode is `Decoding`; otherwise not ready is
`Empty`; otherwise the playing flag separates `Playing` from `Ready`. -/
inductive Phase where
  | Empty
  | Decoding
  | Ready
  | Playing
deriving DecidableEq, Repr

/-- Phase abstraction of a component state. -/
def phase (s : PlayerState) : Phase :=
  if s.decoding then .Decoding
  else if !s.isReady then .Empty
  else if s.isPlaying then .Playing
  else .Ready

/-- Number of playback handles currently producing audio. -/
def countActive (s : PlayerState) : Nat :=
  (s.handles.filter (fun h => h.active)).length

/-! ### Reachable-state invariant of the audio pipeline -/

/-- Invariant of every reachable component state: a pending decode means not
ready; ready means a decoded buffer is installed; every live handle is the
currently referenced source and the component is in playing state; every
handle was started at sample offset zero; at most one handle is live; and no
handle is live while a decode is pending. -/
structure Inv (s : PlayerState) : Prop where
  decoding_not_ready : s.decoding = true → s.isReady = false
  ready_buffer : s.isReady = true → s.buffer.isSome = true
  active_source : ∀ h ∈ s.handles, h.active = true → s.sourceId = some h.id ∧ s.isPlaying = true
  offset_zero : ∀ h ∈ s.handles, h.startOffset = 0
  one_active : countActive s ≤ 1
  decoding_no_active : s.decoding = true → countActive s = 0

theorem markInactive_elim {hs : List Handle} {i : Nat} {h : Handle}
    (hm : h ∈ markInactive hs i) :
    ∃ h0 ∈ hs, h = if h0.id = i then { h0 with active := false } else h0 := by
  simp only [markInactive, List.mem_map] at hm
  obtain ⟨h0, h0m, rfl⟩ := hm
  exact ⟨h0, h0m, rfl⟩

theorem markInactive_offset {hs : List Handle} {i : Nat}
    (h4 : ∀ h ∈ hs, h.startOffset = 0) :
    ∀ h ∈ markInactive hs i, h.startOffset = 0 := by
  intro h hm
  obtain ⟨h0, h0m, rfl⟩ := markInactive_elim hm
  by_cases hid : h0.id = i <;> simp [hid, h4 h0 h0m]

theorem markInactive_filter_nil {hs : List Handle} {i : Nat}
    (hb : ∀ h ∈ hs, h.active = true → h.id = i) :
    (markInactive hs i).filter (fun h => h.active) = [] := by
  apply List.filter_eq_nil_iff.mpr
  intro h hm
  obtain ⟨h0, h0m, rfl⟩ := markInactive_elim hm
  by_cases hid : h0.id = i
  · simp [hid]
  · simp only [hid, if_false]
    intro hact
    exact hid (hb h0 h0m hact)

/-! Equation lemmas exposing the handler branches once the source ref and
the guards are known; they let the invariant proof avoid stuck matches. -/

theorem stop_eq_none {s : PlayerState} (h : s.sourceId = none) :
    stopCurrentSource s = s := by
  unfold stopCurrentSource
  rw [h]

theorem stop_eq_some {s : PlayerState} {i : Nat} (h : s.sourceId = some i) :
    stopCurrentSource s = { s with handles := markInactive s.handles i } := by
  unfold stopCurrentSource
  rw [h]

theorem onEnded_eq_none {s : PlayerState} (h : s.sourceId = none) :
    onEnded s = { s with isPlaying := false } := by
  unfold onEnded
  rw [h]

theorem onEnded_eq_some {s : PlayerState} {i : Nat} (h : s.sourceId = some i) :
    onEnded s = { s with isPlaying := false, sourceId := none,
                         handles := markInactive s.handles i } := by
  unfold onEnded
  rw [h]

theorem hpp_eq_noop {s : PlayerState} (h : (!s.isReady || s.buffer.isNone) = true) :
    handlePlayPause s = s := by
  unfold handlePlayPause
  rw [h]
  rfl

theorem hpp_eq_stop_none {s : PlayerState}
    (hg : (!s.isReady || s.buffer.isNone) = false) (hp : s.isPlaying = true)
    (h : s.sourceId = none) :
    handlePlayPause s = { s with isPlaying := false } := by
  unfold handlePlayPause
  rw [hg, hp, h]
  rfl

theorem hpp_eq_stop_some {s : PlayerState} {i : Nat}
    (hg : (!s.isReady || s.buffer.isNone) = false) (hp : s.isPlaying = true)
    (h : s.sourceId = some i) :
    handlePlayPause s = { s with handles := markInactive s.handles i,
                                 sourceId := none, isPlaying := false } := by
  unfold handlePlayPause
  rw [hg, hp, h]
  rfl

theorem hpp_eq_play {s : PlayerState}
    (hg : (!s.isReady || s.buffer.isNone) = false) (hp : s.isPlaying = false) :
    handlePlayPause s =
      { s with handles := s.handles ++ [{ id := s.nextId, startOffset := 0, active := true }],
               sourceId := some s.nextId, nextId := s.nextId + 1, isPlaying := true } := by
  unfold handlePlayPause
  rw [hg, hp]
  rfl

/-- A state whose live handles all point at the current source retains no
live handle once that source is stopped. -/
theorem no_active_of_inv3 {s : PlayerState}
    (inv3 : ∀ h ∈ s.handles, h.active = true → s.sourceId = some h.id ∧ s.isPlaying = true)
    {i : Nat} (hsrc : s.sourceId = some i) :
    (markInactive s.handles i).filter (fun h => h.active) = [] := by
  apply markInactive_filter_nil
  intro h hm hact
  have := (inv3 h hm hact).1
  rw [hsrc] at this
  exact (Option.some.inj this).symm

/-- A state with no source ref has no live handle. -/
theorem no_active_of_no_source {s : PlayerState}
    (inv3 : ∀ h ∈ s.handles, h.active = true → s.sourceId = some h.id ∧ s.isPlaying = true)
    (hsrc : s.sourceId = none) :
    s.handles.filter (fun h => h.active) = [] := by
  apply List.filter_eq_nil_iff.mpr
  intro h hm hact
  have := (inv3 h hm hact).1
  rw [hsrc] at this
  exact Option.noConfusion this

/-- A non-playing state has no live handle. -/
theorem no_active_of_not_playing {s : PlayerState}
    (inv3 : ∀ h ∈ s.handles, h.active = true → s.sourceId = some h.id ∧ s.isPlaying = true)
    (hp : s.isPlaying = false) :
    s.handles.filter (fun h => h.active) = [] := by
  apply List.filter_eq_nil_iff.mpr
  intro h hm hact
  have := (inv3 h hm hact).2
  rw [hp] at this
  exact Bool.noConfusion this

/-- An invariant package for a state with no live handle, given the flag
facts; closes most branches of the preservation proof. -/
theorem inv_of_filter_nil {s : PlayerState}
    (hnil : s.handles.filter (fun h => h.active) = [])
    (h1 : s.decoding = true → s.isReady = false)
    (h2 : s.isReady = true → s.buffer.isSome = true)
    (h4 : ∀ h ∈ s.handles, h.startOffset = 0) : Inv s := by
  refine ⟨h1, h2, ?_, h4, ?_, ?_⟩
  · intro h hm hact
    have := List.filter_eq_nil_iff.mp hnil h hm
    simp [hact] at this
  · show (s.handles.filter (fun h => h.active)).length ≤ 1
    rw [hnil]; exact Nat.zero_le 1
  · intro _
    show (s.handles.filter (fun h => h.active)).length = 0
    rw [hnil]; rfl

/-- Each event preserves the invariant. -/
theorem inv_step {s : PlayerState} (hs : Inv s) (e : PlayerEvent) : Inv (step s e) := by
  obtain ⟨h1, h2, h3, h4, h5, h6⟩ := hs
  cases e with
  | toggle =>
      show Inv (handlePlayPause s)
      by_cases hg : (!s.isReady || s.buffer.isNone) = true
      · rw [hpp_eq_noop hg]; exact ⟨h1, h2, h3, h4, h5, h6⟩
      · have hg' : (!s.isReady || s.buffer.isNone) = false := by
          cases hb : (!s.isReady || s.buffer.isNone)
          · rfl
          · exact absurd hb hg
        cases hp : s.isPlaying with
        | true =>
            cases hsrc : s.sourceId with
            | none =>
                rw [hpp_eq_stop_none hg' hp hsrc]
                have hnil : s.handles.filter (fun h => h.active) = [] :=
                  no_active_of_no_source h3 hsrc
                exact inv_of_filter_nil hnil h1 h2 h4
            | some i =>
                rw [hpp_eq_stop_some hg' hp hsrc]
                have hnil : (markInactive s.handles i).filter (fun h => h.active) = [] :=
                  no_active_of_inv3 h3 hsrc
                have hoff : ∀ h ∈ markInactive s.handles i, h.startOffset = 0 :=
                  markInactive_offset h4
                exact inv_of_filter_nil hnil h1 h2 hoff
        | false =>
            rw [hpp_eq_play hg' hp]
            have hready : s.isReady = true := by
              cases hr : s.isReady
              · rw [hr] at hg'; simp at hg'
              · rfl
            have hdec : s.decoding = false := by
              cases hd : s.decoding
              · rfl
              · rw [h1 hd] at hready; exact Bool.noConfusion hready
            have hnoactive : s.handles.filter (fun h => h.active) = [] :=
              no_active_of_not_playing h3 hp
            have hcnt : ((s.handles ++ [Handle.mk s.nextId 0 true]).filter
                (fun h => h.active)).length = 1 := by
              rw [List.filter_append, hnoactive]; rfl
            refine ⟨?_, h2, ?_, ?_, ?_, ?_⟩
            · intro hdd
              have : s.decoding = true := hdd
              rw [hdec] at this
              exact Bool.noConfusion this
            · intro h hm hact
              have hm' : h ∈ s.handles ++ [Handle.mk s.nextId 0 true] := hm
              simp only [List.mem_append, List.mem_singleton] at hm'
              cases hm' with
              | inl hmem =>
                  have := (h3 h hmem hact).2
                  rw [hp] at this
                  exact Bool.noConfusion this
              | inr hnew => subst hnew; exact ⟨rfl, rfl⟩
            · intro h hm
              have hm' : h ∈ s.handles ++ [Handle.mk s.nextId 0 true] := hm
              simp only [List.mem_append, List.mem_singleton] at hm'
              cases hm' with
              | inl hmem => exact h4 h hmem
              | inr hnew => subst hnew; rfl
            · show ((s.handles ++ [Handle.mk s.nextId 0 true]).filter
                  (fun h => h.active)).length ≤ 1
              rw [hcnt]
            · intro hdd
              have : s.decoding = true := hdd
              rw [hdec] at this
              exact Bool.noConfusion this
  | ended =>
      show Inv (onEnded s)
      cases hsrc : s.sourceId with
      | none =>
          rw [onEnded_eq_none hsrc]
          have hnil : s.handles.filter (fun h => h.active) = [] :=
            no_active_of_no_source h3 hsrc
          exact inv_of_filter_nil hnil h1 h2 h4
      | some i =>
          rw [onEnded_eq_some hsrc]
          have hnil : (markInactive s.handles i).filter (fun h => h.active) = [] :=
            no_active_of_inv3 h3 hsrc
          have hoff : ∀ h ∈ markInactive s.handles i, h.startOffset = 0 :=
            markInactive_offset h4
          exact inv_of_filter_nil hnil h1 h2 hoff
  | submit d =>
      show Inv (if d = "" then stopCurrentSource s
                else { stopCurrentSource s with isReady := false, decoding := true })
      cases hsrc : s.sourceId with
      | none =>
          rw [stop_eq_none hsrc]
          have hnil : s.handles.filter (fun h => h.active) = [] :=
            no_active_of_no_source h3 hsrc
          by_cases hd : d = ""
          · rw [if_pos hd]; exact inv_of_filter_nil hnil h1 h2 h4
          · rw [if_neg hd]
            refine inv_of_filter_nil hnil ?_ ?_ h4
            · intro _; rfl
            · intro hr; exact Bool.noConfusion hr
      | some i =>
          rw [stop_eq_some hsrc]
          have hnil : (markInactive s.handles i).filter (fun h => h.active) = [] :=
            no_active_of_inv3 h3 hsrc
          have hoff : ∀ h ∈ markInactive s.handles i, h.startOffset = 0 :=
            markInactive_offset h4
          by_cases hd : d = ""
          · rw [if_pos hd]; exact inv_of_filter_nil hnil h1 h2 hoff
          · rw [if_neg hd]
            refine inv_of_filter_nil hnil ?_ ?_ hoff
            · intro _; rfl
            · intro hr; exact Bool.noConfusion hr
  | decodeOk =>
      show Inv (decodeComplete s)
      unfold decodeComplete
      by_cases hd : s.decoding = true
      · rw [if_pos hd]
        refine ⟨?_, ?_, ?_, h4, h5, ?_⟩
        · intro hc; exact Bool.noConfusion hc
        · intro _; rfl
        · intro h hm hact; exact h3 h hm hact
        · intro hc; exact Bool.noConfusion hc
      · rw [if_neg hd]; exact ⟨h1, h2, h3, h4, h5, h6⟩
  | decodeFail =>
      show Inv (decodeFailed s)
      unfold decodeFailed
      by_cases hd : s.decoding = true
      · rw [if_pos hd]
        refine ⟨?_, ?_, ?_, h4, h5, ?_⟩
        · intro hc; exact Bool.noConfusion hc
        · intro hr; exact h2 hr
        · intro h hm hact; exact h3 h hm hact
        · intro hc; exact Bool.noConfusion hc
      · rw [if_neg hd]; exact ⟨h1, h2, h3, h4, h5, h6⟩
  | teardown =>
      show Inv (stopCurrentSource s)
      cases hsrc : s.sourceId with
      | none =>
          rw [stop_eq_none hsrc]
          have hnil : s.handles.filter (fun h => h.active) = [] :=
            no_active_of_no_source h3 hsrc
          exact inv_of_filter_nil hnil h1 h2 h4
      | some i =>
          rw [stop_eq_some hsrc]
          have hnil : (markInactive s.handles i).filter (fun h => h.active) = [] :=
            no_active_of_inv3 h3 hsrc
          have hoff : ∀ h ∈ markInactive s.handles i, h.startOffset = 0 :=
            markInactive_offset h4
          exact inv_of_filter_nil hnil h1 h2 hoff

theorem inv_init : Inv initPlayer := by
  refine ⟨?_, ?_, ?_, ?_, ?_, ?_⟩ <;> simp [initPlayer, countActive]

theorem inv_foldl {s : PlayerState} (hs : Inv s) (es : List PlayerEvent) :
    Inv (es.foldl step s) := by
  induction es generalizing s with
  | nil => exact hs
  | cons e es ih => exact ih (inv_step hs e)

/-- Every reachable state of the component satisfies the invariant. -/
theorem inv_run (es : List PlayerEvent) : Inv (run es) :=
  inv_foldl inv_init es

/-! ### Phase characterizations -/

theorem phase_empty_elim {s : PlayerState} (h : phase s = Phase.Empty) :
    s.decoding = false ∧ s.isReady = false := by
  unfold phase at h
  cases hd : s.decoding with
  | true => rw [hd] at h; simp at h
  | false =>
      cases hr : s.isReady with
      | false => exact ⟨rfl, rfl⟩
      | true =>
          rw [hd, hr] at h
          cases hp : s.isPlaying <;> rw [hp] at h <;> simp at h

theorem phase_decoding_elim {s : PlayerState} (h : phase s = Phase.Decoding) :
    s.decoding = true := by
  cases hd : s.decoding with
  | true => rfl
  | false =>
      unfold phase at h
      rw [hd] at h
      cases hr : s.isReady <;> rw [hr] at h
      · simp at h
      · cases hp : s.isPlaying <;> rw [hp] at h <;> simp at h

theorem phase_ready_elim {s : PlayerState} (h : phase s = Phase.Ready) :
    s.decoding = false ∧ s.isReady = true ∧ s.isPlaying = false := by
  unfold phase at h
  cases hd : s.decoding with
  | true => rw [hd] at h; simp at h
  | false =>
      rw [hd] at h
      cases hr : s.isReady with
      | false => rw [hr] at h; simp at h
      | true =>
          rw [hr] at h
          cases hp : s.isPlaying with
          | true => rw [hp] at h; simp at h
          | false => exact ⟨rfl, rfl, rfl⟩

theorem phase_playing_elim {s : PlayerState} (h : phase s = Phase.Playing) :
    s.decoding = false ∧ s.isReady = true ∧ s.isPlaying = true := by
  unfold phase at h
  cases hd : s.decoding with
  | true => rw [hd] at h; simp at h
  | false =>
      rw [hd] at h
      cases hr : s.isReady with
      | false => rw [hr] at h; simp at h
      | true =>
          rw [hr] at h
          cases hp : s.isPlaying with
          | false => rw [hp] at h; simp at h
          | true => exact ⟨rfl, rfl, rfl⟩

theorem phase_eq_empty {s : PlayerState} (hd : s.decoding = false) (hr : s.isReady = false) :
    phase s = Phase.Empty := by
  unfold phase; rw [hd, hr]; rfl

theorem phase_eq_ready {s : PlayerState} (hd : s.decoding = false) (hr : s.isReady = true)
    (hp : s.isPlaying = false) : phase s = Phase.Ready := by
  unfold phase; rw [hd, hr, hp]; rfl

theorem phase_eq_playing {s : PlayerState} (hd : s.decoding = false) (hr : s.isReady = true)
    (hp : s.isPlaying = true) : phase s = Phase.Playing := by
  unfold phase; rw [hd, hr, hp]; rfl

/-- The play/stop guard is passed exactly when the component is ready with a
decoded buffer. -/
theorem guard_false {s : PlayerState} (hr : s.isReady = true)
    (hbuf : s.buffer.isSome = true) : (!s.isReady || s.buffer.isNone) = false := by
  rw [hr]
  cases hb : s.buffer with
  | none => rw [hb] at hbuf; exact Bool.noConfusion hbuf
  | some v => rfl

/-- After the effect cleanup, no handle is live. -/
theorem countActive_stop {s : PlayerState}
    (i3 : ∀ h ∈ s.handles, h.active = true → s.sourceId = some h.id ∧ s.isPlaying = true) :
    countActive (stopCurrentSource s) = 0 := by
  cases hsrc : s.sourceId with
  | none =>
      rw [stop_eq_none hsrc]
      show (s.handles.filter (fun h => h.active)).length = 0
      rw [no_active_of_no_source i3 hsrc]; rfl
  | some i =>
      rw [stop_eq_some hsrc]
      show ((markInactive s.handles i).filter (fun h => h.active)).length = 0
      rw [no_active_of_inv3 i3 hsrc]; rfl

/-- Submission (with its cleanup) leaves no live handle, whatever the new
payload is. -/
theorem countActive_submit {s : PlayerState} (d : String)
    (i3 : ∀ h ∈ s.handles, h.active = true → s.sourceId = some h.id ∧ s.isPlaying = true) :
    countActive (submitAudio d s) = 0 := by
  show countActive (if d = "" then stopCurrentSource s
      else { stopCurrentSource s with isReady := false, decoding := true }) = 0
  by_cases hd : d = ""
  · rw [if_pos hd]; exact countActive_stop i3
  · rw [if_neg hd]
    show countActive (stopCurrentSource s) = 0
    exact countActive_stop i3

/-! ### Session handler equations -/

theorem loadMore_eq_noloc {s : AppState} {fetch : Except String (Option String)}
    (h : s.location = none) : handleLoadMore s fetch = s := by
  unfold handleLoadMore; rw [h]

theorem loadMore_eq_err {s : AppState} {c : Coords} {e : String}
    (h : s.location = some c) :
    handleLoadMore s (Except.error e) =
      { s with isLoadingMore := false, error := "Erro ao carregar mais: " ++ e } := by
  unfold handleLoadMore; rw [h]

theorem loadMore_eq_ok {s : AppState} {c : Coords} {t : Option String}
    (h : s.location = some c) :
    handleLoadMore s (Except.ok t) =
      if (parsePlaces (t.getD "")).isEmpty = true
      then { s with isLoadingMore := false, error := "" }
      else { s with isLoadingMore := false, error := "",
                    nearbyPlaces := s.nearbyPlaces ++ parsePlaces (t.getD "") } := by
  unfold handleLoadMore; rw [h]

/-- The player lifecycle facts, for any state satisfying the invariant. -/
theorem lifecycle_of_inv {s : PlayerState} (hInv : Inv s) :
    (phase s = Phase.Empty → phase (step s (PlayerEvent.submit "")) = Phase.Empty)
  ∧ ((phase s = Phase.Empty ∨ phase s = Phase.Decoding) → step s PlayerEvent.toggle = s)
  ∧ (phase s = Phase.Ready → phase (step s PlayerEvent.toggle) = Phase.Playing)
  ∧ (phase s = Phase.Playing → phase (step s PlayerEvent.ended) = Phase.Ready)
  ∧ (phase s = Phase.Playing → phase (step s PlayerEvent.toggle) = Phase.Ready)
  ∧ (phase s = Phase.Ready →
      (step s PlayerEvent.toggle).handles =
          s.handles ++ [{ id := s.nextId, startOffset := 0, active := true }]
        ∧ (step s PlayerEvent.toggle).sourceId = some s.nextId)
  ∧ (∀ h ∈ s.handles, h.startOffset = 0) := by
  obtain ⟨i1, i2, i3, i4, i5, i6⟩ := hInv
  refine ⟨?_, ?_, ?_, ?_, ?_, ?_, i4⟩
  · intro h
    obtain ⟨hd, hr⟩ := phase_empty_elim h
    show phase (submitAudio "" s) = Phase.Empty
    have he : submitAudio "" s = stopCurrentSource s := rfl
    rw [he]
    cases hsrc : s.sourceId with
    | none => rw [stop_eq_none hsrc]; exact phase_eq_empty hd hr
    | some i => rw [stop_eq_some hsrc]; exact phase_eq_empty hd hr
  · intro h
    have hr : s.isReady = false := by
      cases h with
      | inl he => exact (phase_empty_elim he).2
      | inr hdc => exact i1 (phase_decoding_elim hdc)
    show handlePlayPause s = s
    apply hpp_eq_noop
    rw [hr]; rfl
  · intro h
    obtain ⟨hd, hr, hp⟩ := phase_ready_elim h
    have hg := guard_false hr (i2 hr)
    show phase (handlePlayPause s) = Phase.Playing
    rw [hpp_eq_play hg hp]
    exact phase_eq_playing hd hr rfl
  · intro h
    obtain ⟨hd, hr, _⟩ := phase_playing_elim h
    show phase (onEnded s) = Phase.Ready
    cases hsrc : s.sourceId with
    | none => rw [onEnded_eq_none hsrc]; exact phase_eq_ready hd hr rfl
    | some i => rw [onEnded_eq_some hsrc]; exact phase_eq_ready hd hr rfl
  · intro h
    obtain ⟨hd, hr, hp⟩ := phase_playing_elim h
    have hg := guard_false hr (i2 hr)
    show phase (handlePlayPause s) = Phase.Ready
    cases hsrc : s.sourceId with
    | none => rw [hpp_eq_stop_none hg hp hsrc]; exact phase_eq_ready hd hr rfl
    | some i => rw [hpp_eq_stop_some hg hp hsrc]; exact phase_eq_ready hd hr rfl
  · intro h
    obtain ⟨hd, hr, hp⟩ := phase_ready_elim h
    have hg := guard_false hr (i2 hr)
    constructor
    · show (handlePlayPause s).handles = _
      rw [hpp_eq_play hg hp]
    · show (handlePlayPause s).sourceId = _
      rw [hpp_eq_play hg hp]

/-! ## Claims -/

/-- C7: the parser maps `"Palace of Culture | Cultural Center | 420m"` to
exactly one candidate with name "Palace of Culture", category
"Cultural Center" and distance label "420m", and
`"1. Old Bridge - Monument - 120m"` to exactly one candidate with name
"Old Bridge" (leading list marker stripped from the name field only),
category "Monument" and distance label "120m". -/
theorem claim7_parse_examples :
    parsePlaces "Palace of Culture | Cultural Center | 420m" =
      [{ name := "Palace of Culture", type := "Cultural Center", distance := "420m" }]
  ∧ parsePlaces "1. Old Bridge - Monument - 120m" =
      [{ name := "Old Bridge", type := "Monument", distance := "120m" }] :=
  ⟨by decide, by decide⟩

/-- C8: parsing is a total deterministic function on strings; `parse ""` and
`parse "hi"` are empty, and a line whose trimmed length is at most 5, or
containing none of the delimiters, is not retained and so contributes no
candidate. -/
theorem claim8_parser_total (x l : String) :
    parsePlaces x = parsePlaces x
  ∧ parsePlaces "" = []
  ∧ parsePlaces "hi" = []
  ∧ (l.length ≤ 5 → keepLine l = false)
  ∧ ((containsSub l "|" || containsSub l ":" || containsSub l " - ") = false →
       keepLine l = false) := by
  refine ⟨rfl, by decide, by decide, ?_, ?_⟩
  · intro h
    unfold keepLine
    have hlen : decide (l.length > 5) = false := by
      simp only [decide_eq_false_iff_not]
      omega
    rw [hlen]
    rfl
  · intro h
    unfold keepLine
    rw [h]
    exact Bool.and_false _

/-- Witness for C8 at concrete lines: "hi" is too short; a long line with no
delimiter is also dropped. -/
theorem claim8_witness : keepLine "hi" = false ∧ keepLine "Palace of Culture" = false :=
  ⟨(claim8_parser_total "" "hi").2.2.2.1 (by decide),
   (claim8_parser_total "" "Palace of Culture").2.2.2.2 (by decide)⟩

/-- C2 counterexample: on `"Castle Hill| |300m"` the second field consists
only of whitespace, yet the emitted candidate's category is the empty string
rather than the claimed default "Point of Interest" — in the source the
fallback `parts[1] || "Point of Interest"` fires before trimming, and a
whitespace-only field is truthy. -/
theorem claim2_counterexample :
    parsePlaces "Castle Hill| |300m" =
      [{ name := "Castle Hill", type := "", distance := "300m" }] := by
  decide

/-- C2 (amended): the category defaults to "Point of Interest" exactly when
the second field is absent or is the empty string before trimming; a
whitespace-only second field instead trims to the empty category. -/
theorem claim2_amended (l : String) (h : (chooseParts l).getD 1 "" = "") :
    (mkPlace l).type = "Point of Interest" := by
  show jsTrim (if (chooseParts l).getD 1 "" = "" then "Point of Interest"
               else (chooseParts l).getD 1 "") = "Point of Interest"
  rw [if_pos h]
  decide

/-- Witness for the amended C2: a line whose second field is the empty
string gets the default category. -/
theorem claim2_witness :
    (chooseParts "Old Castle||300m").getD 1 "" = ""
  ∧ (mkPlace "Old Castle||300m").type = "Point of Interest" :=
  ⟨by decide, claim2_amended "Old Castle||300m" (by decide)⟩

/-- C3 counterexample: on `"123. | Museum | 50m"` the cleaned name is empty
(length 0), yet the parser emits a candidate — the source replaces an empty
cleaned name by "Interesting Place" (`name || "Interesting Place"`), which
then passes the length filter. -/
theorem claim3_counterexample :
    cleanName "123. | Museum | 50m" = ""
  ∧ parsePlaces "123. | Museum | 50m" =
      [{ name := "Interesting Place", type := "Museum", distance := "50m" }] :=
  ⟨by decide, by decide⟩

/-- C3 (amended): a line whose cleaned name has length 1 or 2 produces a
candidate that the final filter drops; an empty cleaned name is instead
replaced by "Interesting Place" and kept; consequently every candidate in
the parser's output has a name longer than 2 characters. -/
theorem claim3_amended (l text : String) (p : Place)
    (h1 : 1 ≤ (cleanName l).length) (h2 : (cleanName l).length ≤ 2)
    (hp : p ∈ parsePlaces text) :
    keepPlace (mkPlace l) = false ∧ 2 < p.name.length := by
  constructor
  · have hne : cleanName l ≠ "" := by
      intro he
      rw [he] at h1
      simp at h1
    have hname : (mkPlace l).name = cleanName l := by
      show (if cleanName l = "" then "Interesting Place" else cleanName l) = cleanName l
      rw [if_neg hne]
    unfold keepPlace
    rw [hname]
    simp only [decide_eq_false_iff_not]
    omega
  · have hp' : p ∈ ((((jsSplit text "\n").map jsTrim).filter keepLine).map mkPlace).filter
        keepPlace := hp
    have hk := (List.mem_filter.mp hp').2
    have : decide (p.name.length > 2) = true := hk
    simpa using of_decide_eq_true this

/-- Witness for the amended C3: cleaned name "ab" (length 2) is dropped, and
a concrete parsed candidate has a name longer than 2 characters. -/
theorem claim3_witness :
    keepPlace (mkPlace "ab|X|1m") = false ∧ 2 < "Statue".length := by
  have h := claim3_amended "ab|X|1m" "Statue | M | 5m"
    { name := "Statue", type := "M", distance := "5m" } (by decide) (by decide) (by decide)
  exact ⟨h.1, h.2⟩

/-- C9: `loadMore` only appends — the previous list is an unchanged prefix
of the new one, the parsed candidates of a successful response follow it in
arrival order, and the length never decreases. -/
theorem claim9_loadMore_appends (s : AppState) (fetch : Except String (Option String)) :
    (handleLoadMore s fetch).nearbyPlaces.take s.nearbyPlaces.length = s.nearbyPlaces
  ∧ s.nearbyPlaces.length ≤ (handleLoadMore s fetch).nearbyPlaces.length
  ∧ (∀ c t, s.location = some c → fetch = Except.ok t →
      (handleLoadMore s fetch).nearbyPlaces = s.nearbyPlaces ++ parsePlaces (t.getD "")) := by
  cases hloc : s.location with
  | none =>
      rw [loadMore_eq_noloc hloc]
      refine ⟨List.take_length _, Nat.le_refl _, ?_⟩
      intro c t hc _
      exact Option.noConfusion hc
  | some c0 =>
      cases fetch with
      | error e =>
          rw [loadMore_eq_err hloc]
          refine ⟨List.take_length _, Nat.le_refl _, ?_⟩
          intro c t _ hf
          exact Except.noConfusion hf
      | ok t =>
          rw [loadMore_eq_ok hloc]
          by_cases he : (parsePlaces (t.getD "")).isEmpty = true
          · rw [if_pos he]
            have hemp : parsePlaces (t.getD "") = [] := by
              cases hpp : parsePlaces (t.getD "")
              · rfl
              · rw [hpp] at he; exact Bool.noConfusion he
            refine ⟨List.take_length _, Nat.le_refl _, ?_⟩
            intro c t' _ hf
            have ht : t = t' := by
              injection hf
            subst ht
            show s.nearbyPlaces = s.nearbyPlaces ++ parsePlaces (t.getD "")
            rw [hemp, List.append_nil]
          · rw [if_neg he]
            refine ⟨?_, ?_, ?_⟩
            · show (s.nearbyPlaces ++ parsePlaces (t.getD "")).take s.nearbyPlaces.length =
                s.nearbyPlaces
              exact List.take_left _ _
            · show s.nearbyPlaces.length ≤ (s.nearbyPlaces ++ parsePlaces (t.getD "")).length
              simp
            · intro c t' _ hf
              have ht : t = t' := by
                injection hf
              subst ht
              rfl

/-- Witness for C9: a successful load-more on the sample session appends the
parsed candidates. -/
theorem claim9_witness :
    (handleLoadMore sampleSession (Except.ok (some "Park | Green Space | 200m"))).nearbyPlaces =
      sampleSession.nearbyPlaces ++ parsePlaces "Park | Green Space | 200m" :=
  (claim9_loadMore_appends sampleSession (Except.ok (some "Park | Green Space | 200m"))).2.2
    sampleCoords (some "Park | Green Space | 200m") rfl rfl

/-- C1 (code bug): `handleLoadMore` performs no client-side filtering of the
new candidates against the existing normalized names — when the upstream
response repeats an accumulated place, the session ends with two entries of
the same normalized name. -/
theorem claim1_duplicate_after_loadMore :
    ((handleLoadMore sampleSession
        (Except.ok (some "Statue | Monument | 50m"))).nearbyPlaces.map
          (fun p => normName p.name)) = ["statue", "statue"]
  ∧ ¬ ((handleLoadMore sampleSession
        (Except.ok (some "Statue | Monument | 50m"))).nearbyPlaces.map
          (fun p => normName p.name)).Nodup :=
  ⟨by decide, by decide⟩

/-- C4 counterexample: a load-more query that parses to zero candidates is
not reported to the user — the error message is cleared to the empty string,
not set to a "nothing found" message. -/
theorem claim4_counterexample :
    (handleLoadMore { sampleSession with error := "stale message" }
        (Except.ok (some "hi"))).error = ""
  ∧ (handleLoadMore { sampleSession with error := "stale message" }
        (Except.ok (some "hi"))).nearbyPlaces = sampleSession.nearbyPlaces :=
  ⟨by decide, by decide⟩

/-- C4 (amended): a discovery query parsing to zero candidates reports the
"nothing found" message and leaves the place list empty (it was cleared by
the reset at the start of the flow); a load-more query parsing to zero
candidates shows no message and leaves the accumulated list unchanged; in
both cases the handler completes normally (loading flags cleared), with no
retry and no crash. -/
theorem claim4_amended (s : AppState) (c : Coords) (t raw : Option String)
    (h1 : parsePlaces (t.getD "") = [])
    (h2 : parsePlaces (raw.getD "") = [])
    (h3 : s.location.isSome = true) :
    ((handleDiscoverNearby s (GeoResult.success c) (Except.ok t)).error =
        "Nenhum local histórico encontrado exatamente nesta área. Tente se mover um pouco."
      ∧ (handleDiscoverNearby s (GeoResult.success c) (Except.ok t)).nearbyPlaces = []
      ∧ (handleDiscoverNearby s (GeoResult.success c) (Except.ok t)).isLoading = false)
  ∧ ((handleLoadMore s (Except.ok raw)).nearbyPlaces = s.nearbyPlaces
      ∧ (handleLoadMore s (Except.ok raw)).error = ""
      ∧ (handleLoadMore s (Except.ok raw)).isLoadingMore = false) := by
  have hisEmpty1 : (parsePlaces (t.getD "")).isEmpty = true := by rw [h1]; rfl
  have hisEmpty2 : (parsePlaces (raw.getD "")).isEmpty = true := by rw [h2]; rfl
  constructor
  · refine ⟨?_, ?_, ?_⟩ <;>
      simp [handleDiscoverNearby, resetState, h1]
  · cases hloc : s.location with
    | none => rw [hloc] at h3; exact Bool.noConfusion h3
    | some c0 =>
        rw [loadMore_eq_ok hloc, if_pos hisEmpty2]
        exact ⟨rfl, rfl, rfl⟩

/-- Witness for the amended C4 on the sample session, with responses that
parse to nothing. -/
theorem claim4_witness :
    (handleDiscoverNearby sampleSession (GeoResult.success sampleCoords)
        (Except.ok (some "hi"))).error =
      "Nenhum local histórico encontrado exatamente nesta área. Tente se mover um pouco."
  ∧ (handleLoadMore sampleSession (Except.ok none)).nearbyPlaces =
      sampleSession.nearbyPlaces := by
  have h := claim4_amended sampleSession sampleCoords (some "hi") none
    (by decide) (by decide) rfl
  exact ⟨h.1.1, h.2.1⟩

/-- C5: lifecycle of the narration pipeline along any event sequence from
mount — an empty submission keeps the phase Empty; play in Empty or Decoding
is a no-op; play in Ready enters Playing; natural end of the clip returns to
Ready; stop while Playing returns to Ready; every play creates a fresh
handle started at sample offset zero (there is no pause/resume: every handle
ever created starts at offset zero). -/
theorem claim5_lifecycle (es : List PlayerEvent) :
    (phase (run es) = Phase.Empty →
       phase (step (run es) (PlayerEvent.submit "")) = Phase.Empty)
  ∧ ((phase (run es) = Phase.Empty ∨ phase (run es) = Phase.Decoding) →
       step (run es) PlayerEvent.toggle = run es)
  ∧ (phase (run es) = Phase.Ready →
       phase (step (run es) PlayerEvent.toggle) = Phase.Playing)
  ∧ (phase (run es) = Phase.Playing →
       phase (step (run es) PlayerEvent.ended) = Phase.Ready)
  ∧ (phase (run es) = Phase.Playing →
       phase (step (run es) PlayerEvent.toggle) = Phase.Ready)
  ∧ (phase (run es) = Phase.Ready →
       (step (run es) PlayerEvent.toggle).handles =
           (run es).handles ++ [{ id := (run es).nextId, startOffset := 0, active := true }]
         ∧ (step (run es) PlayerEvent.toggle).sourceId = some (run es).nextId)
  ∧ (∀ h ∈ (run es).handles, h.startOffset = 0) :=
  lifecycle_of_inv (inv_run es)

/-- Witness for C5: after submitting and decoding a payload the pipeline is
Ready, and play then enters Playing. -/
theorem claim5_witness :
    phase (run [PlayerEvent.submit "x", PlayerEvent.decodeOk]) = Phase.Ready
  ∧ phase (step (run [PlayerEvent.submit "x", PlayerEvent.decodeOk]) PlayerEvent.toggle) =
      Phase.Playing :=
  ⟨by decide,
   (claim5_lifecycle [PlayerEvent.submit "x", PlayerEvent.decodeOk]).2.2.1 (by decide)⟩

/-- C6: along any event sequence from mount, at most one playback handle is
live; a new submission (whose cleanup stops the current source) and a
teardown leave no live handle, and no handle is live while a decode is
pending — so the decoded buffer is only ever replaced after every live
handle has been stopped. -/
theorem claim6_single_handle (es : List PlayerEvent) (d : String) :
    countActive (run es) ≤ 1
  ∧ countActive (step (run es) (PlayerEvent.submit d)) = 0
  ∧ countActive (step (run es) PlayerEvent.teardown) = 0
  ∧ ((run es).decoding = true → countActive (run es) = 0) := by
  obtain ⟨i1, i2, i3, i4, i5, i6⟩ := inv_run es
  refine ⟨i5, ?_, ?_, i6⟩
  · exact countActive_submit d i3
  · show countActive (stopCurrentSource (run es)) = 0
    exact countActive_stop i3

/-- Witness for C6: while the decode issued by a submission is pending, no
handle is live. -/
theorem claim6_witness : countActive (run [PlayerEvent.submit "x"]) = 0 :=
  (claim6_single_handle [PlayerEvent.submit "x"] "x").2.2.2 (by decide)

/-- C10: `generateNarration` never propagates an error — a rejected provider
call and an absent audio payload both yield the empty string, which the
narration widget gate treats as "no narration available" (it does not
render) and which the audio pipeline treats as an empty submission (the
phase stays Empty). -/
theorem claim10_narration_never_fails (e : String) (fmt : OutputFormat) :
    generateNarration (Except.error e) = ""
  ∧ generateNarration (Except.ok none) = ""
  ∧ generateNarration (Except.ok (some "")) = ""
  ∧ rendersAudioPlayer (some (generateNarration (Except.error e))) fmt = false
  ∧ rendersAudioPlayer none fmt = false
  ∧ phase (submitAudio (generateNarration (Except.ok none)) initPlayer) = Phase.Empty := by
  refine ⟨rfl, rfl, rfl, ?_, ?_, rfl⟩
  · show rendersAudioPlayer (some "") fmt = false
    rfl
  · rfl

/-- Witness for C10 at a concrete provider failure and output format. -/
theorem claim10_witness :
    generateNarration (Except.error "network") = ""
  ∧ rendersAudioPlayer (some (generateNarration (Except.error "network")))
      OutputFormat.textAndAudio = false :=
  ⟨(claim10_narration_never_fails "network" OutputFormat.textAndAudio).1,
   (claim10_narration_never_fails "network" OutputFormat.textAndAudio).2.2.2.1⟩

end TourGuide
